import Mathlib

/-!
# Verification of the `musical_offer` Telegram bot

Shallow embedding of `src/musical_offer.py`: a Telegram bot that collects
music submissions, queues them for moderation, and records approve/reject
decisions.  Database tables (`pending_tracks`, `approved_tracks`,
`rejected_tracks`) are modelled as lists of records (association lists of
column name to value); handlers are pure functions from a message, the
database state and the FSM state to a result consisting of an effect trace,
the new database state and the new FSM state.  Fallible external calls
(database requests, message sends) are parameterised by boolean success
flags, since the Python code wraps them in `try`/`except`.
-/

set_option maxRecDepth 100000
set_option maxHeartbeats 2000000

namespace MusicalOffer

/-- A value stored in a table column (or in a Python dict field). -/
inductive Value where
  | str (s : String)
  | int (n : Int)
  deriving DecidableEq, Repr

/-- A database row / Python dict: an association list of column name to value. -/
abbrev Rec := List (String × Value)

/-- Look a column up in a record, like Python's `track.get(k)`. -/
def lookupField (r : Rec) (k : String) : Option Value :=
  (r.find? (fun kv => kv.1 == k)).map (fun kv => kv.2)

/-- Python truthiness of an optional value (`None`, `0` and `""` are falsy). -/
def vTruthy : Option Value → Bool
  | none => false
  | some (Value.int n) => n != 0
  | some (Value.str s) => s != ""

/-! ## SHA-256 (semantics of `hashlib.sha256`)

A byte-level implementation of FIPS 180-4 SHA-256 over `Nat`, with all
32-bit arithmetic taken modulo `2^32` explicitly. -/

/-- Truncate to 32 bits. -/
def u32 (n : Nat) : Nat := n % 4294967296

/-- Modular 32-bit addition. -/
def add32 (a b : Nat) : Nat := (a + b) % 4294967296

/-- Right rotation within 32 bits. -/
def rotr32 (n x : Nat) : Nat := u32 ((x >>> n) ||| (x <<< (32 - n)))

def bigSigma0 (x : Nat) : Nat := (rotr32 2 x) ^^^ (rotr32 13 x) ^^^ (rotr32 22 x)

def bigSigma1 (x : Nat) : Nat := (rotr32 6 x) ^^^ (rotr32 11 x) ^^^ (rotr32 25 x)

def smallSigma0 (x : Nat) : Nat := (rotr32 7 x) ^^^ (rotr32 18 x) ^^^ (x >>> 3)

def smallSigma1 (x : Nat) : Nat := (rotr32 17 x) ^^^ (rotr32 19 x) ^^^ (x >>> 10)

def chF (x y z : Nat) : Nat := (x &&& y) ^^^ ((4294967295 ^^^ x) &&& z)

def majF (x y z : Nat) : Nat := (x &&& y) ^^^ (x &&& z) ^^^ (y &&& z)

/-- The 64 SHA-256 round constants, in decimal. -/
def K64 : List Nat :=
  [1116352408, 1899447441, 3049323471, 3921009573,
   961987163, 1508970993, 2453635748, 2870763221,
   3624381080, 310598401, 607225278, 1426881987,
   1925078388, 2162078206, 2614888103, 3248222580,
   3835390401, 4022224774, 264347078, 604807628,
   770255983, 1249150122, 1555081692, 1996064986,
   2554220882, 2821834349, 2952996808, 3210313671,
   3336571891, 3584528711, 113926993, 338241895,
   666307205, 773529912, 1294757372, 1396182291,
   1695183700, 1986661051, 2177026350, 2456956037,
   2730485921, 2820302411, 3259730800, 3345764771,
   3516065817, 3600352804, 4094571909, 275423344,
   430227734, 506948616, 659060556, 883997877,
   958139571, 1322822218, 1537002063, 1747873779,
   1955562222, 2024104815, 2227730452, 2361852424,
   2428436474, 2756734187, 3204031479, 3329325298]

/-- The SHA-256 initial hash value, in decimal. -/
def H0 : List Nat :=
  [1779033703, 3144134277, 1013904242, 2773480762,
   1359893119, 2600822924, 528734635, 1541459225]

/-- Big-endian byte decomposition: `k` bytes of `n`. -/
def beBytes (k n : Nat) : List Nat :=
  (List.range k).map (fun i => (n >>> (8 * (k - 1 - i))) % 256)

/-- SHA-256 padding: append `0x80`, zeros up to 56 mod 64, then the 64-bit
bit length, big-endian. -/
def padMessage (msg : List Nat) : List Nat :=
  msg ++ [0x80] ++ List.replicate ((119 - msg.length % 64) % 64) 0 ++ beBytes 8 (8 * msg.length)

/-- Combine 4 consecutive big-endian bytes into 32-bit words. -/
def toWords : List Nat → List Nat
  | a :: b :: c :: d :: rest => ((((a <<< 8) ||| b) <<< 8 ||| c) <<< 8 ||| d) :: toWords rest
  | _ => []

/-- Extend a 16-word message schedule by `n` more words. -/
def extendSchedule (w : List Nat) : Nat → List Nat
  | 0 => w
  | n + 1 =>
      extendSchedule
        (w ++ [add32 (add32 (smallSigma1 (w.getD (w.length - 2) 0)) (w.getD (w.length - 7) 0))
               (add32 (smallSigma0 (w.getD (w.length - 15) 0)) (w.getD (w.length - 16) 0))]) n

/-- One compression round: `kw` is `K[i] + W[i] (mod 2^32)`. -/
def roundStep (st : List Nat) (kw : Nat) : List Nat :=
  match st with
  | [a, b, c, d, e, f, g, h] =>
      let t1 := add32 h (add32 (bigSigma1 e) (add32 (chF e f g) kw))
      let t2 := add32 (bigSigma0 a) (majF a b c)
      [add32 t1 t2, a, b, c, add32 d t1, e, f, g]
  | st => st

/-- Compress one 64-byte block into the running hash value. -/
def compressBlock (hv : List Nat) (block : List Nat) : List Nat :=
  let w := extendSchedule (toWords block) 48
  let kw := List.zipWith add32 K64 w
  List.zipWith add32 hv (kw.foldl roundStep hv)

/-- Split a byte list into 64-byte blocks (the padded message's length is a
multiple of 64, so the final accumulator is empty). -/
def splitBlocks (acc : List Nat) : List Nat → List (List Nat)
  | [] => if acc.isEmpty then [] else [acc]
  | b :: rest =>
      if acc.length == 63 then (acc ++ [b]) :: splitBlocks [] rest
      else splitBlocks (acc ++ [b]) rest

/-- SHA-256 digest of a byte list, as eight 32-bit words. -/
def sha256Words (msg : List Nat) : List Nat :=
  (splitBlocks [] (padMessage msg)).foldl compressBlock H0

/-- Lower-case hexadecimal digit. -/
def hexDigit (n : Nat) : Char :=
  if n < 10 then Char.ofNat (48 + n) else Char.ofNat (87 + n)

/-- A 32-bit word as 8 hexadecimal characters. -/
def toHex8 (n : Nat) : List Char :=
  (List.range 8).map (fun i => hexDigit ((n >>> (4 * (7 - i))) % 16))

/-- Semantics of `hashlib.sha256(bytes).hexdigest()`: the digest as 64
lower-case hex characters. -/
def sha256HexDigest (msg : List Nat) : String :=
  String.mk ((sha256Words msg).map toHex8).flatten

/-- Semantics of `str.encode()` for the ASCII strings produced by
`str(user_id)`: each character's code point is its UTF-8 byte. -/
def strBytes (s : String) : List Nat := s.toList.map (fun c => c.toNat)

/-- Model of `hash_user_id` (src/musical_offer.py:45-47):
`hashlib.sha256(str(user_id).encode()).hexdigest()[:16]`. -/
def hash_user_id (user_id : Int) : String :=
  (sha256HexDigest (strBytes (toString user_id))).take 16

/-! ## Time

Python `datetime` objects with a common `tzinfo` compare field by field,
lexicographically.  The code compares the message timestamp (re-interpreted
as UTC) against `DEADLINE = datetime(2025, 12, 26, 23, 59, 59, tzinfo=utc)`. -/

structure Timestamp where
  year : Nat
  month : Nat
  day : Nat
  hour : Nat
  minute : Nat
  second : Nat
  deriving DecidableEq, Repr

/-- Strict lexicographic comparison of timestamps, as Python compares
`datetime` values sharing a timezone: `tsGt a b` means `a > b`. -/
def tsGt (a b : Timestamp) : Bool :=
  if a.year ≠ b.year then decide (b.year < a.year)
  else if a.month ≠ b.month then decide (b.month < a.month)
  else if a.day ≠ b.day then decide (b.day < a.day)
  else if a.hour ≠ b.hour then decide (b.hour < a.hour)
  else if a.minute ≠ b.minute then decide (b.minute < a.minute)
  else decide (b.second < a.second)

/-- Model of `DEADLINE` (src/musical_offer.py:30):
`datetime(2025, 12, 26, 23, 59, 59, tzinfo=timezone.utc)`. -/
def DEADLINE : Timestamp := ⟨2025, 12, 26, 23, 59, 59⟩

/-! ## Data model: tables, messages, FSM, effects -/

/-- The three Supabase tables used by the bot. -/
structure DB where
  pending : List Rec
  approved : List Rec
  rejected : List Rec
  deriving DecidableEq, Repr

/-- The data `handle_moderation` stores into the FSM context
(`track_db_id`, `action`, `user_hash`). -/
structure ModData where
  track_db_id : String
  action : String
  user_hash : String
  deriving DecidableEq, Repr

/-- The aiogram FSM: the default (no state) plus the single declared state
`ModerationComment.waiting_for_comment` (src/musical_offer.py:41-42). -/
inductive FSMState where
  | idle
  | waitingForComment (d : ModData)
  deriving DecidableEq, Repr

/-- An incoming Telegram message, restricted to the fields the handlers
read. -/
structure Msg where
  fromUserId : Int
  firstName : String
  text : Option String
  audio : Option String
  date : Timestamp
  deriving DecidableEq, Repr

/-- Observable effects of a handler: replies to the current chat, database
requests (selects record the tables read; inserts and deletes record the
attempt, whether or not it succeeds), messages to the submitter or the
moderator, presenting a track for moderation (`send_moderation_message`),
and log lines written from `except` blocks. -/
inductive Effect where
  | reply (msg : String)
  | dbSelect (table : String)
  | dbInsert (table : String) (r : Rec)
  | dbDelete (table : String) (idVal : Option Value)
  | notifyUser (uid : Value) (msg : String)
  | notifyModerator (msg : String)
  | presentTrack (r : Rec) (trackId : Option Value)
  | logMsg (s : String)
  deriving DecidableEq, Repr

/-- The outcome of one handler invocation. -/
structure HandlerResult where
  effects : List Effect
  db : DB
  fsm : FSMState
  deriving DecidableEq, Repr

/-- Success flags for the fallible external calls of
`process_moderation_comment`: the initial `pending_tracks` lookup, the
insert of the decision record, the notification send, the delete from
`pending_tracks`, and the final `pending_tracks` listing. -/
structure Oracle where
  getOk : Bool
  insertOk : Bool
  notifyOk : Bool
  deleteOk : Bool
  listOk : Bool
  deriving DecidableEq, Repr

/-! ## Helper functions of the bot -/

/-- Sort key used by `order("created_at", desc=False)`; `created_at` values
are modelled as integers. -/
def createdKey (r : Rec) : Int :=
  match lookupField r "created_at" with
  | some (Value.int n) => n
  | _ => 0

/-- Ordering of pending records by creation time. -/
def recLe (a b : Rec) : Prop := createdKey a ≤ createdKey b

instance : DecidableRel recLe := fun a b => Int.decLe (createdKey a) (createdKey b)

instance : IsTotal Rec recLe := ⟨fun a b => Int.le_total (createdKey a) (createdKey b)⟩

instance : IsTrans Rec recLe := ⟨fun _ _ _ => Int.le_trans⟩

/-- Ascending stable sort by `created_at`, the server-side ordering
requested by `get_all_pending_tracks`. -/
def sortPending (l : List Rec) : List Rec := List.insertionSort recLe l

/-- Model of `get_all_pending_tracks` (src/musical_offer.py:49-56): all
pending tracks ordered by `created_at` ascending; an exception yields `[]`. -/
def get_all_pending_tracks (ok : Bool) (db : DB) : List Rec :=
  if ok then sortPending db.pending else []

/-- Model of `get_track_by_id` (src/musical_offer.py:58-66): first pending
row whose `id` column equals the given string; an exception or no match
yields `None`. -/
def get_track_by_id (ok : Bool) (db : DB) (track_id : String) : Option Rec :=
  if ok then db.pending.find? (fun r => lookupField r "id" == some (Value.str track_id))
  else none

/-- Number of rows of a table whose `user_hash` column equals `h`
(the `select("id").eq("user_hash", h)` count). -/
def countByHash (l : List Rec) (h : String) : Nat :=
  (l.filter (fun r => lookupField r "user_hash" == some (Value.str h))).length

/-- The fixed platform list of `handle_message` (src/musical_offer.py:332). -/
def platforms : List String :=
  ["youtube.com", "youtu.be", "spotify.com", "apple.co", "music.yandex", "vk.com"]

/-- Whether `needle` is an initial segment of `hay`. -/
def startsWithChars : List Char → List Char → Bool
  | [], _ => true
  | _ :: _, [] => false
  | a :: as, b :: bs => a == b && startsWithChars as bs

/-- Whether `needle` occurs contiguously inside `hay`. -/
def hasSubChars (needle : List Char) : List Char → Bool
  | [] => needle.isEmpty
  | b :: bs => startsWithChars needle (b :: bs) || hasSubChars needle bs

/-- Substring test, `p in text_content` of Python. -/
def containsSub (p t : String) : Bool := hasSubChars p.toList t.toList

/-- Whether a stripped text mentions one of the supported platforms. -/
def containsPlatform (t : String) : Bool := platforms.any (fun p => containsSub p t)

/-- Python `text.startswith("/")`: the first character is a slash. -/
def startsWithSlash (t : String) : Bool :=
  match t.toList with
  | c :: _ => c == '/'
  | [] => false

/-- Whether a message text is a bot command
(`message.text and message.text.startswith("/")`). -/
def isCommandText : Option String → Bool
  | some t => startsWithSlash t
  | none => false

/-- Python `text.strip()`: drop leading and trailing whitespace. -/
def pyStrip (s : String) : String :=
  String.mk (((s.toList.dropWhile Char.isWhitespace).reverse.dropWhile
    Char.isWhitespace).reverse)

/-- Python `data.split("_", 1)` as used on callback data that starts with
`approve_` or `reject_` (so an underscore is always present). -/
def splitFirst (s : String) : String × String :=
  match s.splitOn "_" with
  | [] => (s, "")
  | [a] => (a, "")
  | a :: rest => (a, String.intercalate "_" rest)

/-- Render a `Value` as Python would interpolate it into a string. -/
def asStr : Value → String
  | Value.str s => s
  | Value.int n => toString n

/-! ## Reply texts (verbatim from src/musical_offer.py) -/

def MSG_NO_MOD_RIGHTS : String := "❌ У тебя нет прав модератора."

def MSG_ONLY_MODERATOR : String := "❌ Только модератор может это сделать."

def MSG_NO_PENDING_CHECK : String := "📋 Нет треков, ожидающих проверки."

def MSG_NO_PENDING_MODERATE : String := "📋 Нет треков для модерации."

def MSG_TRACKS_FETCH_ERROR : String := "❌ Произошла ошибка при получении списка треков."

def MSG_TRACK_GONE : String := "❌ Ошибка: трек не найден или уже обработан."

def MSG_CB_TRACK_GONE : String := "❌ Трек не найден или уже обработан."

def MSG_APPROVED : String := "✅ Трек <b>одобрен</b>! 🎉"

def MSG_REJECTED : String := "❌ Трек <b>отклонён</b>. 😔"

def MSG_SAVE_DECISION_ERROR : String := "❌ Произошла ошибка при сохранении решения. Попробуй снова."

def MSG_NEXT_TRACK : String := "➡️ Следующий трек для модерации:"

def MSG_ALL_DONE : String := "🎉 Все треки обработаны! 👏"

def MSG_DEADLINE_OVER : String :=
  "⏰ Извини, <b>срок отправки треков</b> для новогодней тусовки закончился! 🎄\n\nСпасибо за участие! 🎉"

def MSG_BAD_PLATFORM : String :=
  "❌ Пожалуйста, отправь <b>аудиофайл</b> или <b>ссылку</b> на трек с одной из поддерживаемых платформ (YouTube, Spotify и др.). 🎧"

def MSG_LIMIT_CHECK_ERROR : String := "❌ Произошла ошибка при проверке лимита. Попробуй позже."

def MSG_LIMIT_REACHED : String := "❌ Извини, ты <b>уже отправил 3 трека</b> — лимит исчерпан! 🎶"

def MSG_SEND_AUDIO_OR_LINK : String := "❌ Отправь, пожалуйста, <b>аудиофайл</b> или <b>ссылку</b> на трек. 🎧"

def MSG_SAVE_TRACK_ERROR : String := "❌ Произошла ошибка при сохранении трека. Попробуй снова."

def MSG_START_LOAD_ERROR : String := "❌ Произошла ошибка при загрузке данных. Попробуй позже."

/-- Text sent to the submitter on a decision (src/musical_offer.py:223-226). -/
def notificationText (action comment : String) : String :=
  if action == "approve" then
    "🎶 Твой трек <b>одобрен</b>! 🎉\n\n💬 Комментарий модератора:\n<blockquote>" ++ comment ++ "</blockquote>"
  else
    "😔 Твой трек <b>отклонён</b>.\n\n💬 Комментарий модератора:\n<blockquote>" ++ comment
      ++ "</blockquote>\n\n🎵 Можешь прислать другой трек!"

/-- Prompt for a moderation comment (src/musical_offer.py:268-269). -/
def promptCommentMsg (action : String) : String :=
  let action_text := if action == "approve" then "одобрить" else "отклонить"
  "📝 Введи комментарий для пользователя (для действия \x27<b>" ++ action_text ++ "</b>\x27):"

/-- Notification to the moderator about a fresh submission
(src/musical_offer.py:384). -/
def newTrackNotify (user_hash : String) : String :=
  "🎵 Новый трек от пользователя <code>" ++ user_hash.take 8 ++ "...</code> на модерации!"

/-- Confirmation after a successful submission (src/musical_offer.py:379). -/
def submitOkMsg (remaining : Nat) : String :=
  "✅ Твой трек <b>получен</b> и отправлен на модерацию! 🎵\n\n📊 <b>Осталось отправить:</b> "
    ++ toString remaining

/-- The welcome text of `/start` (src/musical_offer.py:94-104). -/
def welcomeText (first_name : String) (total_sent remaining : Nat) : String :=
  "✨ Привет, <b>" ++ first_name ++ "</b>! 🎧\n\n"
    ++ "Я — <b>Party Music Bot</b> 🎵, и я помогу тебе составить плейлист к новогодней тусовке! 🎄🎉\n\n"
    ++ "<b>Ты можешь прислать до 3 треков</b> — это могут быть аудиофайлы или ссылки на YouTube, Spotify, Яндекс.Музыку и другие платформы.\n\n"
    ++ "✅ <b>Одобренный</b> трек закрепляется.\n"
    ++ "❌ <b>Отклонённый</b> трек — можно заменить новым!\n\n"
    ++ "📊 <b>Ты уже отправил:</b> " ++ toString total_sent ++ "/3\n"
    ++ "🎵 <b>Осталось отправить:</b> " ++ toString remaining ++ "\n\n"
    ++ "🔐 Всё анонимно!\n\n"
    ++ "Если возникнут вопросы — писать в <a href=\x27https://t.me/ligr5\x27><b>поддержку</b></a>! 📩"

/-- One line of the `/check` listing (src/musical_offer.py:123-126). -/
def checkLine (i : Nat) (t : Rec) : String :=
  let h := (match lookupField t "user_hash" with
            | some v => asStr v
            | none => "???").take 8
  let track_type := if lookupField t "type" == some (Value.str "audio") then "🎵 Аудио" else "🔗 Ссылка"
  toString i ++ ". " ++ track_type ++ " (пользователь: <code>" ++ h ++ "...</code>)"

/-- The `/check` listing (src/musical_offer.py:122-128). -/
def renderCheck (pending : List Rec) : String :=
  String.intercalate "\n"
    ("📋 <b>Треки на модерации:</b>\n" :: pending.enum.map (fun p => checkLine (p.1 + 1) p.2))

/-- Lines of one section of the `/tracks` listing
(src/musical_offer.py:164-169, 176-181). -/
def trackLines (l : List Rec) : List String :=
  l.enum.filterMap (fun p =>
    let i := p.1 + 1
    let t := p.2
    if vTruthy (lookupField t "url") then
      let title := match lookupField t "url_title" with
                   | some v => asStr v
                   | none => "Ссылка"
      some (toString i ++ ". <a href=\x27" ++ asStr ((lookupField t "url").getD (Value.str ""))
              ++ "\x27>" ++ title ++ "</a>")
    else if vTruthy (lookupField t "file_id") then
      some (toString i ++ ". [Аудио файл]")
    else none)

/-- The `/tracks` listing (src/musical_offer.py:159-185). -/
def renderTracks (approved rejected : List Rec) : String :=
  let ap := if approved.isEmpty then ["🎧 Нет одобренных треков."]
            else "🎧 <b>Одобренные треки:</b>" :: trackLines approved
  let rj := if rejected.isEmpty then ["\n❌ Нет отклонённых треков."]
            else "\n❌ <b>Отклонённые треки:</b>" :: trackLines rejected
  String.intercalate "\n" (ap ++ rj)

/-! ## Handlers -/

/-- Model of `send_moderation_message` (src/musical_offer.py:278-306):
present one pending track to the moderator with approve/reject buttons. -/
def send_moderation_message (track : Rec) (track_db_id : Option Value) : List Effect :=
  [Effect.presentTrack track track_db_id]

/-- Model of `cmd_start` (src/musical_offer.py:70-107). `countOk` is whether
the two status selects succeed. -/
def cmd_start (msg : Msg) (countOk : Bool) (db : DB) (fsm : FSMState) : HandlerResult :=
  let user_hash := hash_user_id msg.fromUserId
  let eff0 := [Effect.dbSelect "pending_tracks", Effect.dbSelect "approved_tracks"]
  if !countOk then
    ⟨eff0 ++ [Effect.logMsg "status load failed", Effect.reply MSG_START_LOAD_ERROR], db, fsm⟩
  else
    let total_sent := countByHash db.pending user_hash + countByHash db.approved user_hash
    -- `max(0, 3 - total_sent)` over Python ints equals truncated subtraction on Nat
    ⟨eff0 ++ [Effect.reply (welcomeText msg.firstName total_sent (3 - total_sent))], db, fsm⟩

/-- Model of `cmd_check` (src/musical_offer.py:111-128). -/
def cmd_check (modId : Int) (msg : Msg) (listOk : Bool) (db : DB) (fsm : FSMState) : HandlerResult :=
  if msg.fromUserId != modId then ⟨[Effect.reply MSG_NO_MOD_RIGHTS], db, fsm⟩
  else
    let pending := get_all_pending_tracks listOk db
    if pending.isEmpty then ⟨[Effect.dbSelect "pending_tracks", Effect.reply MSG_NO_PENDING_CHECK], db, fsm⟩
    else ⟨[Effect.dbSelect "pending_tracks", Effect.reply (renderCheck pending)], db, fsm⟩

/-- Model of `cmd_moderate` (src/musical_offer.py:130-141). -/
def cmd_moderate (modId : Int) (msg : Msg) (listOk : Bool) (db : DB) (fsm : FSMState) : HandlerResult :=
  if msg.fromUserId != modId then ⟨[Effect.reply MSG_NO_MOD_RIGHTS], db, fsm⟩
  else
    match get_all_pending_tracks listOk db with
    | first_track :: _ =>
        ⟨Effect.dbSelect "pending_tracks"
           :: send_moderation_message first_track (lookupField first_track "id"), db, fsm⟩
    | [] => ⟨[Effect.dbSelect "pending_tracks", Effect.reply MSG_NO_PENDING_MODERATE], db, fsm⟩

/-- Model of `cmd_tracks` (src/musical_offer.py:143-185). `fetchOk` is
whether the two selects succeed. -/
def cmd_tracks (modId : Int) (msg : Msg) (fetchOk : Bool) (db : DB) (fsm : FSMState) : HandlerResult :=
  if msg.fromUserId != modId then ⟨[Effect.reply MSG_NO_MOD_RIGHTS], db, fsm⟩
  else if !fetchOk then
    ⟨[Effect.dbSelect "approved_tracks", Effect.dbSelect "rejected_tracks",
      Effect.logMsg "tracks fetch failed", Effect.reply MSG_TRACKS_FETCH_ERROR], db, fsm⟩
  else
    ⟨[Effect.dbSelect "approved_tracks", Effect.dbSelect "rejected_tracks",
      Effect.reply (renderTracks db.approved db.rejected)], db, fsm⟩

/-- Model of `handle_moderation` (src/musical_offer.py:251-274): an
approve/reject button press. A missing `user_hash` column would raise
`KeyError` before `set_state`, leaving the state unchanged. -/
def handle_moderation (modId : Int) (fromUserId : Int) (callbackData : String) (getOk : Bool)
    (db : DB) (fsm : FSMState) : HandlerResult :=
  if fromUserId != modId then ⟨[Effect.reply MSG_ONLY_MODERATOR], db, fsm⟩
  else
    let action := (splitFirst callbackData).1
    let track_db_id := (splitFirst callbackData).2
    match get_track_by_id getOk db track_db_id with
    | none => ⟨[Effect.dbSelect "pending_tracks", Effect.reply MSG_CB_TRACK_GONE], db, fsm⟩
    | some track =>
        match lookupField track "user_hash" with
        | none => ⟨[Effect.dbSelect "pending_tracks", Effect.logMsg "KeyError: user_hash"], db, fsm⟩
        | some uh =>
            ⟨[Effect.dbSelect "pending_tracks", Effect.reply (promptCommentMsg action)], db,
              FSMState.waitingForComment ⟨track_db_id, action, asStr uh⟩⟩

/-- The `safe_track` of `process_moderation_comment`
(src/musical_offer.py:205): the pending record without `id`, `user_id` and
`created_at`. -/
def safeFilter (track : Rec) : Rec :=
  track.filter (fun kv => !(kv.1 == "id" || kv.1 == "user_id" || kv.1 == "created_at"))

/-- The decision block of `process_moderation_comment`
(src/musical_offer.py:207-219): returns whether the insert succeeded, the
resulting database and the effects of the block. -/
def decisionStep (action : String) (insertOk : Bool) (db : DB) (safe_track : Rec) :
    Bool × DB × List Effect :=
  if action == "approve" then
    if insertOk then
      (true, { db with approved := db.approved ++ [safe_track] },
       [Effect.dbInsert "approved_tracks" safe_track, Effect.reply MSG_APPROVED])
    else
      (false, db,
       [Effect.dbInsert "approved_tracks" safe_track, Effect.logMsg "save failed",
        Effect.reply MSG_SAVE_DECISION_ERROR])
  else if action == "reject" then
    if insertOk then
      (true, { db with rejected := db.rejected ++ [safe_track] },
       [Effect.dbInsert "rejected_tracks" safe_track, Effect.reply MSG_REJECTED])
    else
      (false, db,
       [Effect.dbInsert "rejected_tracks" safe_track, Effect.logMsg "save failed",
        Effect.reply MSG_SAVE_DECISION_ERROR])
  else (false, db, [])

/-- The notification block of `process_moderation_comment`
(src/musical_offer.py:221-230): runs only when the insert succeeded and
`user_id` is truthy; a failed send is only logged. -/
def notifySegment (success : Bool) (user_id : Option Value) (notifyOk : Bool)
    (action comment : String) : List Effect :=
  if success && vTruthy user_id then
    match user_id with
    | some uid =>
        if notifyOk then [Effect.notifyUser uid (notificationText action comment)]
        else [Effect.notifyUser uid (notificationText action comment),
              Effect.logMsg "notify failed"]
    | none => []
  else []

/-- The deletion block of `process_moderation_comment`
(src/musical_offer.py:232-236): always attempted; a failure is only
logged. -/
def deleteSegment (deleteOk : Bool) (idv : Option Value) : List Effect :=
  if deleteOk then [Effect.dbDelete "pending_tracks" idv]
  else [Effect.dbDelete "pending_tracks" idv, Effect.logMsg "delete failed"]

/-- The continuation of `process_moderation_comment`
(src/musical_offer.py:240-247): present the next pending track, if any. -/
def continuationEffs (listOk : Bool) (db2 : DB) : List Effect :=
  match get_all_pending_tracks listOk db2 with
  | next_track :: _ =>
      Effect.dbSelect "pending_tracks" :: Effect.reply MSG_NEXT_TRACK ::
        send_moderation_message next_track (lookupField next_track "id")
  | [] => [Effect.dbSelect "pending_tracks", Effect.reply MSG_ALL_DONE]

/-- Model of `process_moderation_comment` (src/musical_offer.py:189-247):
the moderator's comment arriving in state `waiting_for_comment` with FSM
data `d`. -/
def process_moderation_comment (msg : Msg) (d : ModData) (o : Oracle) (db : DB) : HandlerResult :=
  let comment := match msg.text with
    | some t => if t == "" then "Без комментария." else t
    | none => "Без комментария."
  match get_track_by_id o.getOk db d.track_db_id with
  | none => ⟨[Effect.dbSelect "pending_tracks", Effect.reply MSG_TRACK_GONE], db, FSMState.idle⟩
  | some track =>
      let user_id := lookupField track "user_id"
      let step := decisionStep d.action o.insertOk db (safeFilter track)
      let db2 :=
        if o.deleteOk then
          { step.2.1 with pending := step.2.1.pending.filter (fun r =>
              !(lookupField r "id" == lookupField track "id")) }
        else step.2.1
      ⟨Effect.dbSelect "pending_tracks"
         :: (step.2.2 ++ notifySegment step.1 user_id o.notifyOk d.action comment
             ++ deleteSegment o.deleteOk (lookupField track "id")
             ++ continuationEffs o.listOk db2),
        db2, FSMState.idle⟩

/-- The link-check guard of `handle_message` (src/musical_offer.py:330-335):
true when the message has text containing no supported platform. -/
def linkGuardFails (textContent : Option String) : Bool :=
  match textContent with
  | some t => !containsPlatform t
  | none => false

/-- The `track_data` dictionary of `handle_message`
(src/musical_offer.py:357-361): audio first, else a non-empty stripped
text as a link. -/
def trackDataOf (msg : Msg) (textContent : Option String) : Option Rec :=
  match msg.audio with
  | some fid => some [("type", Value.str "audio"), ("file_id", Value.str fid)]
  | none =>
      match textContent with
      | some t =>
          if t == "" then none
          else some [("type", Value.str "url"), ("url", Value.str t),
                     ("url_title", Value.str "Ссылка на трек")]
      | none => none

/-- The storing tail of `handle_message` (src/musical_offer.py:356-388):
build `track_data`, add `user_id` and `user_hash`, insert into
`pending_tracks`, confirm and notify the moderator. -/
def storeTrack (msg : Msg) (insertOk : Bool) (db : DB) (fsm : FSMState)
    (user_hash : String) (total_sent : Nat) (textContent : Option String) : HandlerResult :=
  match trackDataOf msg textContent with
  | none => ⟨[Effect.reply MSG_SEND_AUDIO_OR_LINK], db, fsm⟩
  | some td =>
      let full := td ++ [("user_id", Value.int msg.fromUserId),
                         ("user_hash", Value.str user_hash)]
      if !insertOk then
        ⟨[Effect.dbInsert "pending_tracks" full, Effect.logMsg "insert failed",
          Effect.reply MSG_SAVE_TRACK_ERROR], db, fsm⟩
      else
        ⟨[Effect.dbInsert "pending_tracks" full,
          Effect.reply (submitOkMsg (3 - (total_sent + 1))),
          Effect.notifyModerator (newTrackNotify user_hash)],
         { db with pending := db.pending ++ [full] }, fsm⟩

/-- Model of `handle_message` (src/musical_offer.py:310-388): the
catch-all submission handler. `countOk` is whether the two limit-check
selects succeed, `insertOk` whether the `pending_tracks` insert succeeds. -/
def handle_message (msg : Msg) (countOk insertOk : Bool) (db : DB)
    (fsm : FSMState) : HandlerResult :=
  match fsm with
  | FSMState.waitingForComment _ => ⟨[], db, fsm⟩
  | FSMState.idle =>
    if isCommandText msg.text then ⟨[], db, fsm⟩
    else if tsGt msg.date DEADLINE then ⟨[Effect.reply MSG_DEADLINE_OVER], db, fsm⟩
    else
      let textContent := msg.text.map pyStrip
      if linkGuardFails textContent then
        ⟨[Effect.reply MSG_BAD_PLATFORM], db, fsm⟩
      else
        let user_hash := hash_user_id msg.fromUserId
        if !countOk then
          ⟨[Effect.dbSelect "pending_tracks", Effect.dbSelect "approved_tracks",
            Effect.logMsg "limit check failed", Effect.reply MSG_LIMIT_CHECK_ERROR], db, fsm⟩
        else
          let total_sent := countByHash db.pending user_hash + countByHash db.approved user_hash
          if total_sent ≥ 3 then
            ⟨[Effect.dbSelect "pending_tracks", Effect.dbSelect "approved_tracks",
              Effect.reply MSG_LIMIT_REACHED], db, fsm⟩
          else
            let res := storeTrack msg insertOk db fsm user_hash total_sent textContent
            ⟨Effect.dbSelect "pending_tracks" :: Effect.dbSelect "approved_tracks"
               :: res.effects, res.db, res.fsm⟩

/-! ## Sample data for witnesses -/

def sampleTrack : Rec :=
  [("id", Value.str "t1"), ("created_at", Value.int 5), ("type", Value.str "url"),
   ("url", Value.str "https://youtu.be/abc"), ("url_title", Value.str "Ссылка на трек"),
   ("user_id", Value.int 42), ("user_hash", Value.str "0123456789abcdef")]

def sampleTrack2 : Rec :=
  [("id", Value.str "t2"), ("created_at", Value.int 9), ("type", Value.str "audio"),
   ("file_id", Value.str "fileX"), ("user_id", Value.int 77),
   ("user_hash", Value.str "fedcba9876543210")]

def sampleDB : DB := ⟨[sampleTrack, sampleTrack2], [], []⟩

def sampleMsg : Msg := ⟨42, "Artem", some "отличный трек", none, ⟨2025, 12, 20, 10, 0, 0⟩⟩

def allOk : Oracle := ⟨true, true, true, true, true⟩

def lateMsg : Msg := ⟨42, "Artem", some "привет", none, ⟨2025, 12, 27, 0, 0, 0⟩⟩

/-- The database writes of an effect trace (the insert and delete
attempts). -/
def dbWrites (effs : List Effect) : List Effect :=
  effs.filter (fun e =>
    match e with
    | Effect.dbInsert _ _ => true
    | Effect.dbDelete _ _ => true
    | _ => false)

def limTrack (tid : String) : Rec :=
  [("id", Value.str tid), ("created_at", Value.int 1), ("type", Value.str "url"),
   ("url", Value.str "https://vk.com/x"), ("url_title", Value.str "Ссылка на трек"),
   ("user_id", Value.int 42), ("user_hash", Value.str (hash_user_id 42))]

def limitDB : DB := ⟨[limTrack "p1", limTrack "p2", limTrack "p3"], [], []⟩

def linkMsg : Msg := ⟨42, "Artem", some "https://vk.com/y", none, ⟨2025, 12, 20, 10, 0, 0⟩⟩

/-- The record stored for an accepted link submission. -/
def linkRec (msg : Msg) (t : String) : Rec :=
  [("type", Value.str "url"), ("url", Value.str (pyStrip t)),
   ("url_title", Value.str "Ссылка на трек"),
   ("user_id", Value.int msg.fromUserId),
   ("user_hash", Value.str (hash_user_id msg.fromUserId))]

def platMsg : Msg :=
  ⟨42, "Artem", some " https://open.spotify.com/track/x ", none, ⟨2025, 12, 20, 10, 0, 0⟩⟩

/-! ## Helper lemmas -/

theorem roundStep_length (st : List Nat) (kw : Nat) : (roundStep st kw).length = st.length := by
  unfold roundStep
  split <;> simp

theorem foldl_roundStep_length (l : List Nat) (st : List Nat) :
    (l.foldl roundStep st).length = st.length := by
  induction l generalizing st with
  | nil => rfl
  | cons a l ih => rw [List.foldl_cons, ih, roundStep_length]

theorem compressBlock_length (hv block : List Nat) :
    (compressBlock hv block).length = hv.length := by
  unfold compressBlock
  simp [foldl_roundStep_length]

theorem foldl_compressBlock_length (bs : List (List Nat)) (hv : List Nat) :
    (bs.foldl compressBlock hv).length = hv.length := by
  induction bs generalizing hv with
  | nil => rfl
  | cons b bs ih => rw [List.foldl_cons, ih, compressBlock_length]

theorem sha256Words_length (msg : List Nat) : (sha256Words msg).length = 8 := by
  unfold sha256Words
  rw [foldl_compressBlock_length]
  rfl

theorem toHex8_length (n : Nat) : (toHex8 n).length = 8 := by
  simp [toHex8]

theorem flatten_map_toHex8_length (ws : List Nat) :
    ((ws.map toHex8).flatten).length = 8 * ws.length := by
  induction ws with
  | nil => rfl
  | cons w ws ih => simp [ih, toHex8_length, Nat.mul_succ, Nat.add_comm]

theorem sha256HexDigest_length (msg : List Nat) : (sha256HexDigest msg).length = 64 := by
  unfold sha256HexDigest
  rw [String.length_mk, flatten_map_toHex8_length, sha256Words_length]

theorem string_length_eq_data (s : String) : s.length = s.data.length := rfl

theorem hash_user_id_length (user_id : Int) : (hash_user_id user_id).length = 16 := by
  have h64 := sha256HexDigest_length (strBytes (toString user_id))
  rw [string_length_eq_data] at h64
  rw [hash_user_id, string_length_eq_data, String.data_take, List.length_take, h64]
  decide

/-- Looking a key up in an extended record. -/
theorem lookupField_cons (k' : String) (v : Value) (rest : Rec) (k : String) :
    lookupField ((k', v) :: rest) k = if (k' == k) = true then some v else lookupField rest k := by
  by_cases h : (k' == k) = true
  · simp [lookupField, List.find?_cons, h]
  · simp only [Bool.not_eq_true] at h
    simp [lookupField, List.find?_cons, h]

/-- Looking a key up after filtering on a key predicate. -/
theorem lookupField_filter_key (q : String → Bool) (track : Rec) (k : String) :
    lookupField (track.filter (fun kv => q kv.1)) k
      = if q k then lookupField track k else none := by
  induction track with
  | nil => simp [lookupField]
  | cons kv rest ih =>
      obtain ⟨k', v⟩ := kv
      by_cases hq : q k' = true
      · rw [List.filter_cons, if_pos (by simpa using hq), lookupField_cons, lookupField_cons]
        by_cases hk : (k' == k) = true
        · have hqk : q k = true := by rw [← beq_iff_eq.mp hk]; exact hq
          rw [if_pos hk, if_pos hk, hqk]
          simp
        · rw [if_neg hk, ih]
          by_cases hqk : q k = true
          · rw [hqk, if_pos rfl, if_pos rfl, if_neg hk]
          · have : q k = false := by simpa using hqk
            rw [this]
            simp
      · have hq' : q k' = false := by simpa using hq
        rw [List.filter_cons, if_neg (by simp [hq']), ih]
        by_cases hk : (k' == k) = true
        · have hqk : q k = false := by rw [← beq_iff_eq.mp hk]; exact hq'
          rw [hqk]
          simp
        · by_cases hqk : q k = true
          · rw [hqk, if_pos rfl, if_pos rfl, lookupField_cons, if_neg hk]
          · have : q k = false := by simpa using hqk
            rw [this]
            simp

theorem countByHash_append (l l' : List Rec) (h : String) :
    countByHash (l ++ l') h = countByHash l h + countByHash l' h := by
  simp [countByHash, List.filter_append]

theorem sortPending_sorted (l : List Rec) : List.Sorted recLe (sortPending l) :=
  List.sorted_insertionSort recLe l

theorem sortPending_perm (l : List Rec) : List.Perm (sortPending l) l :=
  List.perm_insertionSort recLe l

/-- The head of the sorted pending list belongs to the unsorted list and has
the least `created_at`. -/
theorem sortPending_head_min {l : List Rec} {t : Rec} {rest : List Rec}
    (h : sortPending l = t :: rest) :
    t ∈ l ∧ ∀ r ∈ l, createdKey t ≤ createdKey r := by
  have hperm := sortPending_perm l
  rw [h] at hperm
  have hs := sortPending_sorted l
  rw [h] at hs
  refine ⟨hperm.subset (List.mem_cons_self t rest), ?_⟩
  intro r hr
  have hr' : r ∈ t :: rest := hperm.mem_iff.mpr hr
  rcases List.mem_cons.mp hr' with rfl | hr2
  · exact le_refl _
  · exact (List.sorted_cons.mp hs).1 r hr2

/-- Removing all rows matching an id equals removing the unique row at its
index, when the mapped keys are distinct. -/
theorem filter_ne_eq_eraseIdx {α β : Type} [BEq β] [LawfulBEq β] (f : α → β)
    (l : List α) (x : α) (hx : x ∈ l) (hnd : (l.map f).Nodup) :
    l.filter (fun r => !(f r == f x)) = l.eraseIdx (l.findIdx (fun r => f r == f x)) := by
  induction l with
  | nil => cases hx
  | cons a as ih =>
      have hnd2 : f a ∉ as.map f ∧ (as.map f).Nodup := by
        rw [List.map_cons] at hnd
        exact List.nodup_cons.mp hnd
      obtain ⟨hnotin, hnd'⟩ := hnd2
      by_cases hfa : f a = f x
      · have hbeq : (f a == f x) = true := beq_iff_eq.mpr hfa
        rw [List.findIdx_cons]
        simp only [hbeq, cond_true, List.eraseIdx_cons_zero, List.filter_cons, Bool.not_true]
        rw [if_neg (by simp)]
        have hall : ∀ r ∈ as, (!(f r == f x)) = true := by
          intro r hr
          have hne : f r ≠ f x := by
            intro he
            apply hnotin
            rw [hfa, ← he]
            exact List.mem_map_of_mem f hr
          simp [hne]
        exact List.filter_eq_self.mpr hall
      · have hbeq : (f a == f x) = false := by simp [hfa]
        have hx' : x ∈ as := by
          rcases List.mem_cons.mp hx with rfl | h
          · exact absurd rfl hfa
          · exact h
        rw [List.findIdx_cons]
        simp only [hbeq, cond_false, List.eraseIdx_cons_succ, List.filter_cons, Bool.not_false]
        rw [if_pos (by simp [hbeq]), ih hx' hnd']

/-- The SHA-256 implementation matches the FIPS 180-4 test value for
`"abc"`. -/
theorem sha256HexDigest_abc :
    sha256HexDigest (strBytes "abc")
      = "ba7816bf8f01cfea414140de5dae2223b00361a396177a9cb410ff61f20015ad" := by
  decide

theorem storeTrack_fsm (msg : Msg) (iOk : Bool) (db : DB) (fsm : FSMState)
    (uh : String) (ts : Nat) (tc : Option String) :
    (storeTrack msg iOk db fsm uh ts tc).fsm = fsm := by
  unfold storeTrack
  split
  · rfl
  · by_cases h : iOk = true <;> simp [h]

/-! ## C5: the user hash -/

/-- C5: for every integer user ID, `hash_user_id` returns the first 16
hexadecimal characters of the SHA-256 digest of the decimal representation
of the ID; it is deterministic (equal IDs give equal hashes), always 16
characters long, and agrees with the standard SHA-256 digests on concrete
inputs. -/
theorem c5_hash_user_id :
    (∀ user_id : Int,
      hash_user_id user_id = (sha256HexDigest (strBytes (toString user_id))).take 16)
    ∧ (∀ a b : Int, a = b → hash_user_id a = hash_user_id b)
    ∧ (∀ user_id : Int, (hash_user_id user_id).length = 16)
    ∧ hash_user_id 0 = "5feceb66ffc86f38"
    ∧ hash_user_id 123456789 = "15e2b0d3c33891eb"
    ∧ hash_user_id (-5) = "37aa1ccf80e48183" := by
  refine ⟨fun _ => rfl, fun a b h => by rw [h], hash_user_id_length, ?_, ?_, ?_⟩
  · decide
  · decide
  · decide

theorem c5_hash_user_id_witness : hash_user_id 42 = hash_user_id 42 :=
  c5_hash_user_id.2.1 42 42 rfl

/-! ## Structural lemmas about `process_moderation_comment` -/

theorem get_track_by_id_mem {ok : Bool} {db : DB} {tid : String} {track : Rec}
    (h : get_track_by_id ok db tid = some track) :
    track ∈ db.pending ∧ lookupField track "id" = some (Value.str tid) := by
  unfold get_track_by_id at h
  cases ok with
  | false => simp at h
  | true =>
      simp only [if_true] at h
      refine ⟨List.mem_of_find?_eq_some h, ?_⟩
      have hp := List.find?_some h
      simpa [beq_iff_eq] using hp

theorem decisionStep_mem_insert {action : String} {insertOk : Bool} {db : DB} {s : Rec}
    {tbl : String} {r : Rec}
    (h : Effect.dbInsert tbl r ∈ (decisionStep action insertOk db s).2.2) :
    (tbl = "approved_tracks" ∨ tbl = "rejected_tracks") ∧ r = s := by
  unfold decisionStep at h
  split at h
  · split at h
    · simp at h
      exact ⟨Or.inl h.1, h.2⟩
    · simp at h
      exact ⟨Or.inl h.1, h.2⟩
  · split at h
    · split at h
      · simp at h
        exact ⟨Or.inr h.1, h.2⟩
      · simp at h
        exact ⟨Or.inr h.1, h.2⟩
    · simp at h

theorem notifySegment_no_insert {success : Bool} {uid : Option Value} {nOk : Bool}
    {action comment : String} {tbl : String} {r : Rec} :
    Effect.dbInsert tbl r ∉ notifySegment success uid nOk action comment := by
  intro h
  unfold notifySegment at h
  split at h
  · split at h
    · split at h <;> simp at h
    · simp at h
  · simp at h

theorem deleteSegment_no_insert {dOk : Bool} {idv : Option Value} {tbl : String} {r : Rec} :
    Effect.dbInsert tbl r ∉ deleteSegment dOk idv := by
  intro h
  unfold deleteSegment at h
  split at h <;> simp at h

theorem continuationEffs_no_insert {lOk : Bool} {db2 : DB} {tbl : String} {r : Rec} :
    Effect.dbInsert tbl r ∉ continuationEffs lOk db2 := by
  intro h
  unfold continuationEffs at h
  split at h <;> simp [send_moderation_message] at h

theorem safeFilter_key (track : Rec) (k : String) :
    lookupField (safeFilter track) k
      = if !(k == "id" || k == "user_id" || k == "created_at") then lookupField track k
        else none :=
  lookupField_filter_key (fun s => !(s == "id" || s == "user_id" || s == "created_at")) track k

theorem safeFilter_id (track : Rec) : lookupField (safeFilter track) "id" = none := by
  rw [safeFilter_key]
  have hc : (!(("id" : String) == "id" || ("id" : String) == "user_id"
      || ("id" : String) == "created_at")) = false := by decide
  rw [hc]
  simp

theorem safeFilter_user_id (track : Rec) : lookupField (safeFilter track) "user_id" = none := by
  rw [safeFilter_key]
  have hc : (!(("user_id" : String) == "id" || ("user_id" : String) == "user_id"
      || ("user_id" : String) == "created_at")) = false := by decide
  rw [hc]
  simp

theorem safeFilter_created_at (track : Rec) :
    lookupField (safeFilter track) "created_at" = none := by
  rw [safeFilter_key]
  have hc : (!(("created_at" : String) == "id" || ("created_at" : String) == "user_id"
      || ("created_at" : String) == "created_at")) = false := by decide
  rw [hc]
  simp

theorem safeFilter_user_hash (track : Rec) :
    lookupField (safeFilter track) "user_hash" = lookupField track "user_hash" := by
  rw [safeFilter_key]
  have hc : (!(("user_hash" : String) == "id" || ("user_hash" : String) == "user_id"
      || ("user_hash" : String) == "created_at")) = true := by decide
  rw [hc]
  simp

/-! ## C1: approved/rejected records are anonymised -/

/-- C1: every record the moderation-comment handler hands to a database
insert goes into `approved_tracks` or `rejected_tracks`, contains none of
the `id`, `user_id` and `created_at` columns of the pending record (in
particular not the raw Telegram user ID), and keeps the submitter's
`user_hash` unchanged. -/
theorem c1_safe_insert (msg : Msg) (d : ModData) (o : Oracle) (db : DB)
    (tbl : String) (r : Rec)
    (hmem : Effect.dbInsert tbl r ∈ (process_moderation_comment msg d o db).effects) :
    (tbl = "approved_tracks" ∨ tbl = "rejected_tracks")
    ∧ lookupField r "id" = none
    ∧ lookupField r "user_id" = none
    ∧ lookupField r "created_at" = none
    ∧ ∃ track ∈ db.pending,
        lookupField track "id" = some (Value.str d.track_db_id)
        ∧ lookupField r "user_hash" = lookupField track "user_hash" := by
  cases hfind : get_track_by_id o.getOk db d.track_db_id with
  | none =>
      simp only [process_moderation_comment, hfind] at hmem
      simp at hmem
  | some track =>
      simp only [process_moderation_comment, hfind] at hmem
      rcases List.mem_cons.mp hmem with h | hmem
      · simp at h
      · rcases List.mem_append.mp hmem with h3 | hcont
        · rcases List.mem_append.mp h3 with h4 | hdel
          · rcases List.mem_append.mp h4 with hstep | hnot
            · obtain ⟨htbl, hr⟩ := decisionStep_mem_insert hstep
              subst hr
              obtain ⟨hmemtrack, hid⟩ := get_track_by_id_mem hfind
              exact ⟨htbl, safeFilter_id track, safeFilter_user_id track,
                safeFilter_created_at track,
                ⟨track, hmemtrack, hid, safeFilter_user_hash track⟩⟩
            · exact absurd hnot notifySegment_no_insert
          · exact absurd hdel deleteSegment_no_insert
        · exact absurd hcont continuationEffs_no_insert

theorem c1_safe_insert_witness :
    (("approved_tracks" : String) = "approved_tracks"
      ∨ ("approved_tracks" : String) = "rejected_tracks")
    ∧ lookupField (safeFilter sampleTrack) "id" = none
    ∧ lookupField (safeFilter sampleTrack) "user_id" = none
    ∧ lookupField (safeFilter sampleTrack) "created_at" = none
    ∧ ∃ track ∈ sampleDB.pending,
        lookupField track "id" = some (Value.str "t1")
        ∧ lookupField (safeFilter sampleTrack) "user_hash" = lookupField track "user_hash" :=
  c1_safe_insert sampleMsg ⟨"t1", "approve", "0123456789abcdef"⟩ allOk sampleDB
    "approved_tracks" (safeFilter sampleTrack) (by decide)

/-! ## C2: non-moderator access control -/

/-- C2: whenever the sender of `/check`, `/moderate`, `/tracks` or of an
approve/reject callback is not `MODERATOR_ID`, the handler replies with the
refusal message only, leaves every table unchanged, performs no database
request, and leaves the FSM state unchanged. -/
theorem c2_non_moderator_refused (modId : Int) (msg : Msg) (cb : String) (ok : Bool)
    (db : DB) (fsm : FSMState) (uid : Int)
    (hmsg : msg.fromUserId ≠ modId) (huid : uid ≠ modId) :
    cmd_check modId msg ok db fsm = ⟨[Effect.reply MSG_NO_MOD_RIGHTS], db, fsm⟩
    ∧ cmd_moderate modId msg ok db fsm = ⟨[Effect.reply MSG_NO_MOD_RIGHTS], db, fsm⟩
    ∧ cmd_tracks modId msg ok db fsm = ⟨[Effect.reply MSG_NO_MOD_RIGHTS], db, fsm⟩
    ∧ handle_moderation modId uid cb ok db fsm
        = ⟨[Effect.reply MSG_ONLY_MODERATOR], db, fsm⟩ := by
  have h1 : (msg.fromUserId != modId) = true := by simpa [bne_iff_ne] using hmsg
  have h2 : (uid != modId) = true := by simpa [bne_iff_ne] using huid
  refine ⟨?_, ?_, ?_, ?_⟩ <;>
    simp [cmd_check, cmd_moderate, cmd_tracks, handle_moderation, h1, h2]

theorem c2_non_moderator_refused_witness :
    cmd_check 1 sampleMsg true sampleDB FSMState.idle
      = ⟨[Effect.reply MSG_NO_MOD_RIGHTS], sampleDB, FSMState.idle⟩
    ∧ cmd_moderate 1 sampleMsg true sampleDB FSMState.idle
      = ⟨[Effect.reply MSG_NO_MOD_RIGHTS], sampleDB, FSMState.idle⟩
    ∧ cmd_tracks 1 sampleMsg true sampleDB FSMState.idle
      = ⟨[Effect.reply MSG_NO_MOD_RIGHTS], sampleDB, FSMState.idle⟩
    ∧ handle_moderation 1 2 "approve_t1" true sampleDB FSMState.idle
      = ⟨[Effect.reply MSG_ONLY_MODERATOR], sampleDB, FSMState.idle⟩ :=
  c2_non_moderator_refused 1 sampleMsg "approve_t1" true sampleDB FSMState.idle 2
    (by decide) (by decide)

/-! ## C10: the submission deadline -/

/-- C10: a non-command message whose timestamp (interpreted as UTC) is
strictly later than 2025-12-26 23:59:59 UTC makes the submission handler
reply that the period is over and return without any database request,
storage or moderator notification, and without changing state. -/
theorem c10_deadline_cutoff (msg : Msg) (countOk insertOk : Bool) (db : DB)
    (hcmd : isCommandText msg.text = false)
    (hlate : tsGt msg.date DEADLINE = true) :
    handle_message msg countOk insertOk db FSMState.idle
      = ⟨[Effect.reply MSG_DEADLINE_OVER], db, FSMState.idle⟩ := by
  simp [handle_message, hcmd, hlate]

theorem c10_deadline_cutoff_witness :
    handle_message lateMsg true true sampleDB FSMState.idle
      = ⟨[Effect.reply MSG_DEADLINE_OVER], sampleDB, FSMState.idle⟩ :=
  c10_deadline_cutoff lateMsg true true sampleDB (by decide) (by decide)

/-! ## C9: the FSM has two states -/

/-- C9: the FSM has exactly the states idle and awaiting-comment; every
handler leaves the state unchanged except that the approve/reject callback
(for the moderator, on an existing track with a `user_hash`) sets
`waiting_for_comment`, and the comment handler always ends with the state
cleared. -/
theorem c9_fsm_two_states :
    (∀ fsm' : FSMState, fsm' = FSMState.idle ∨ ∃ d, fsm' = FSMState.waitingForComment d)
    ∧ (∀ msg countOk db fsm, (cmd_start msg countOk db fsm).fsm = fsm)
    ∧ (∀ modId msg ok db fsm, (cmd_check modId msg ok db fsm).fsm = fsm)
    ∧ (∀ modId msg ok db fsm, (cmd_moderate modId msg ok db fsm).fsm = fsm)
    ∧ (∀ modId msg ok db fsm, (cmd_tracks modId msg ok db fsm).fsm = fsm)
    ∧ (∀ msg countOk insertOk db fsm, (handle_message msg countOk insertOk db fsm).fsm = fsm)
    ∧ (∀ msg d o db, (process_moderation_comment msg d o db).fsm = FSMState.idle)
    ∧ (∀ modId uid cb ok db fsm,
        (handle_moderation modId uid cb ok db fsm).fsm = fsm
        ∨ (uid = modId
            ∧ ∃ track, get_track_by_id ok db (splitFirst cb).2 = some track
            ∧ ∃ uh, lookupField track "user_hash" = some uh
            ∧ (handle_moderation modId uid cb ok db fsm).fsm
                = FSMState.waitingForComment ⟨(splitFirst cb).2, (splitFirst cb).1, asStr uh⟩)) := by
  refine ⟨?_, ?_, ?_, ?_, ?_, ?_, ?_, ?_⟩
  · intro fsm'
    cases fsm' with
    | idle => exact Or.inl rfl
    | waitingForComment d => exact Or.inr ⟨d, rfl⟩
  · intro msg countOk db fsm
    simp only [cmd_start]
    repeat' split
    all_goals rfl
  · intro modId msg ok db fsm
    simp only [cmd_check]
    repeat' split
    all_goals rfl
  · intro modId msg ok db fsm
    simp only [cmd_moderate]
    repeat' split
    all_goals rfl
  · intro modId msg ok db fsm
    simp only [cmd_tracks]
    repeat' split
    all_goals rfl
  · intro msg countOk insertOk db fsm
    cases fsm with
    | waitingForComment d => rfl
    | idle =>
        simp only [handle_message]
        repeat' split
        all_goals first
          | rfl
          | apply storeTrack_fsm
  · intro msg d o db
    simp only [process_moderation_comment]
    repeat' split
    all_goals rfl
  · intro modId uid cb ok db fsm
    simp only [handle_moderation]
    split
    · exact Or.inl rfl
    · next hmod =>
        split
        · exact Or.inl rfl
        · next track heq =>
            split
            · exact Or.inl rfl
            · next uh heq2 =>
                have huid : uid = modId := by simpa [bne_iff_ne, not_not] using hmod
                exact Or.inr ⟨huid, track, heq, uh, heq2, rfl⟩

/-! ## More segment lemmas -/

theorem decisionStep_no_notify {action : String} {iOk : Bool} {db : DB} {s : Rec}
    {u : Value} {m : String} :
    Effect.notifyUser u m ∉ (decisionStep action iOk db s).2.2 := by
  intro h
  unfold decisionStep at h
  split at h
  · split at h <;> simp at h
  · split at h
    · split at h <;> simp at h
    · simp at h

theorem deleteSegment_no_notify {dOk : Bool} {idv : Option Value} {u : Value} {m : String} :
    Effect.notifyUser u m ∉ deleteSegment dOk idv := by
  intro h
  unfold deleteSegment at h
  split at h <;> simp at h

theorem continuationEffs_no_notify {lOk : Bool} {db2 : DB} {u : Value} {m : String} :
    Effect.notifyUser u m ∉ continuationEffs lOk db2 := by
  intro h
  unfold continuationEffs at h
  split at h <;> simp [send_moderation_message] at h

theorem notifySegment_mem {success : Bool} {uid : Option Value} {nOk : Bool}
    {action comment : String} {u : Value} {m : String}
    (h : Effect.notifyUser u m ∈ notifySegment success uid nOk action comment) :
    success = true ∧ uid = some u ∧ vTruthy (some u) = true := by
  unfold notifySegment at h
  split at h
  · next hcond =>
      rw [Bool.and_eq_true] at hcond
      obtain ⟨hs, ht⟩ := hcond
      split at h
      · next uidv =>
          have hu : u = uidv := by
            split at h <;> simp at h <;> exact h.1
          subst hu
          exact ⟨hs, rfl, ht⟩
      · simp at h
  · simp at h

theorem decisionStep_success {action : String} {iOk : Bool} {db : DB} {s : Rec}
    (h : (decisionStep action iOk db s).1 = true) :
    iOk = true
    ∧ (Effect.dbInsert "approved_tracks" s ∈ (decisionStep action iOk db s).2.2
        ∨ Effect.dbInsert "rejected_tracks" s ∈ (decisionStep action iOk db s).2.2) := by
  by_cases hA : (action == "approve") = true
  · by_cases hI : iOk = true
    · exact ⟨hI, Or.inl (by simp [decisionStep, hA, hI])⟩
    · have hI' : iOk = false := by simpa using hI
      simp [decisionStep, hA, hI'] at h
  · have hA' : (action == "approve") = false := by simpa using hA
    by_cases hR : (action == "reject") = true
    · by_cases hI : iOk = true
      · exact ⟨hI, Or.inr (by simp [decisionStep, hA', hR, hI])⟩
      · have hI' : iOk = false := by simpa using hI
        simp [decisionStep, hA', hR, hI'] at h
    · have hR' : (action == "reject") = false := by simpa using hR
      simp [decisionStep, hA', hR'] at h

theorem decisionStep_pending (action : String) (iOk : Bool) (db : DB) (s : Rec) :
    (decisionStep action iOk db s).2.1.pending = db.pending := by
  unfold decisionStep
  repeat' split
  all_goals rfl

theorem decisionStep_db_of_insert_failed (action : String) (db : DB) (s : Rec) :
    (decisionStep action false db s).2.1 = db := by
  unfold decisionStep
  repeat' split
  all_goals simp_all

theorem deleteSegment_self (dOk : Bool) (idv : Option Value) :
    Effect.dbDelete "pending_tracks" idv ∈ deleteSegment dOk idv := by
  unfold deleteSegment
  split <;> simp

theorem notifySegment_dbWrites (success : Bool) (uid : Option Value) (nOk : Bool)
    (action comment : String) :
    dbWrites (notifySegment success uid nOk action comment) = [] := by
  unfold notifySegment
  split
  · split
    · split <;> rfl
    · rfl
  · rfl

theorem dbWrites_append (a b : List Effect) :
    dbWrites (a ++ b) = dbWrites a ++ dbWrites b := by
  simp [dbWrites, List.filter_append]

theorem dbWrites_cons_select (t : String) (l : List Effect) :
    dbWrites (Effect.dbSelect t :: l) = dbWrites l := by
  simp [dbWrites, List.filter_cons]

/-! ## C7: notification is optional and non-essential -/

/-- C7: a notification to the submitter occurs only when the decision
insert succeeded and the pending track carries a truthy `user_id`; and the
notify-success flag changes neither the resulting database, nor the FSM
state, nor the database writes of the handler. -/
theorem c7_notification_optional (msg : Msg) (d : ModData) (o : Oracle) (db : DB) :
    (∀ u m, Effect.notifyUser u m ∈ (process_moderation_comment msg d o db).effects →
        o.insertOk = true
        ∧ (∃ tbl r, Effect.dbInsert tbl r ∈ (process_moderation_comment msg d o db).effects)
        ∧ ∃ track, get_track_by_id o.getOk db d.track_db_id = some track
            ∧ lookupField track "user_id" = some u ∧ vTruthy (some u) = true)
    ∧ (∀ b₁ b₂ : Bool,
        (process_moderation_comment msg d { o with notifyOk := b₁ } db).db
          = (process_moderation_comment msg d { o with notifyOk := b₂ } db).db
        ∧ (process_moderation_comment msg d { o with notifyOk := b₁ } db).fsm
          = (process_moderation_comment msg d { o with notifyOk := b₂ } db).fsm
        ∧ dbWrites (process_moderation_comment msg d { o with notifyOk := b₁ } db).effects
          = dbWrites (process_moderation_comment msg d { o with notifyOk := b₂ } db).effects) := by
  constructor
  · intro u m hmem
    cases hfind : get_track_by_id o.getOk db d.track_db_id with
    | none =>
        simp only [process_moderation_comment, hfind] at hmem
        simp at hmem
    | some track =>
        simp only [process_moderation_comment, hfind] at hmem
        rcases List.mem_cons.mp hmem with h | hmem
        · simp at h
        · rcases List.mem_append.mp hmem with h3 | hcont
          · rcases List.mem_append.mp h3 with h4 | hdel
            · rcases List.mem_append.mp h4 with hstep | hnot
              · exact absurd hstep decisionStep_no_notify
              · obtain ⟨hsucc, huid, htr⟩ := notifySegment_mem hnot
                obtain ⟨hiOk, hins⟩ := decisionStep_success hsucc
                refine ⟨hiOk, ?_, track, rfl, huid, htr⟩
                rcases hins with hins | hins
                · refine ⟨"approved_tracks", safeFilter track, ?_⟩
                  simp only [process_moderation_comment, hfind]
                  exact List.mem_cons_of_mem _ (List.mem_append_left _
                    (List.mem_append_left _ (List.mem_append_left _ hins)))
                · refine ⟨"rejected_tracks", safeFilter track, ?_⟩
                  simp only [process_moderation_comment, hfind]
                  exact List.mem_cons_of_mem _ (List.mem_append_left _
                    (List.mem_append_left _ (List.mem_append_left _ hins)))
            · exact absurd hdel deleteSegment_no_notify
          · exact absurd hcont continuationEffs_no_notify
  · intro b₁ b₂
    cases hfind : get_track_by_id o.getOk db d.track_db_id with
    | none => simp [process_moderation_comment, hfind]
    | some track =>
        refine ⟨?_, ?_, ?_⟩
        · simp [process_moderation_comment, hfind]
        · simp [process_moderation_comment, hfind]
        · simp only [process_moderation_comment, hfind]
          rw [dbWrites_cons_select, dbWrites_cons_select, dbWrites_append, dbWrites_append,
            dbWrites_append, dbWrites_append, dbWrites_append, dbWrites_append,
            notifySegment_dbWrites, notifySegment_dbWrites]

theorem c7_notification_optional_witness :
    (Oracle.insertOk allOk = true
      ∧ (∃ tbl r, Effect.dbInsert tbl r
          ∈ (process_moderation_comment sampleMsg ⟨"t1", "approve", "0123456789abcdef"⟩
              allOk sampleDB).effects)
      ∧ ∃ track, get_track_by_id allOk.getOk sampleDB "t1" = some track
          ∧ lookupField track "user_id" = some (Value.int 42)
          ∧ vTruthy (some (Value.int 42)) = true) :=
  (c7_notification_optional sampleMsg ⟨"t1", "approve", "0123456789abcdef"⟩ allOk sampleDB).1
    (Value.int 42) (notificationText "approve" "отличный трек") (by decide)

/-! ## C8: the delete is attempted even when the insert failed -/

/-- C8: when the pending track exists but the decision insert raises, the
handler still attempts the delete from `pending_tracks` (and, when the
delete succeeds, the track disappears from the queue) while neither
`approved_tracks` nor `rejected_tracks` records the decision. -/
theorem c8_unconditional_delete (msg : Msg) (d : ModData) (o : Oracle) (db : DB) (track : Rec)
    (hfound : get_track_by_id o.getOk db d.track_db_id = some track)
    (hins : o.insertOk = false) :
    Effect.dbDelete "pending_tracks" (lookupField track "id")
        ∈ (process_moderation_comment msg d o db).effects
    ∧ (process_moderation_comment msg d o db).db.approved = db.approved
    ∧ (process_moderation_comment msg d o db).db.rejected = db.rejected
    ∧ (o.deleteOk = true →
        (process_moderation_comment msg d o db).db.pending
          = db.pending.filter (fun r => !(lookupField r "id" == lookupField track "id"))) := by
  refine ⟨?_, ?_, ?_, ?_⟩
  · simp only [process_moderation_comment, hfound]
    exact List.mem_cons_of_mem _
      (List.mem_append_left _ (List.mem_append_right _ (deleteSegment_self _ _)))
  · simp only [process_moderation_comment, hfound]
    rw [hins]
    by_cases hD : o.deleteOk = true <;>
      simp [hD, decisionStep_db_of_insert_failed]
  · simp only [process_moderation_comment, hfound]
    rw [hins]
    by_cases hD : o.deleteOk = true <;>
      simp [hD, decisionStep_db_of_insert_failed]
  · intro hD
    simp only [process_moderation_comment, hfound]
    rw [hins]
    simp [hD, decisionStep_db_of_insert_failed]

theorem c8_unconditional_delete_witness :
    Effect.dbDelete "pending_tracks" (lookupField sampleTrack "id")
        ∈ (process_moderation_comment sampleMsg ⟨"t1", "approve", "0123456789abcdef"⟩
            ⟨true, false, true, true, true⟩ sampleDB).effects
    ∧ (process_moderation_comment sampleMsg ⟨"t1", "approve", "0123456789abcdef"⟩
          ⟨true, false, true, true, true⟩ sampleDB).db.approved = sampleDB.approved
    ∧ (process_moderation_comment sampleMsg ⟨"t1", "approve", "0123456789abcdef"⟩
          ⟨true, false, true, true, true⟩ sampleDB).db.rejected = sampleDB.rejected
    ∧ ((⟨true, false, true, true, true⟩ : Oracle).deleteOk = true →
        (process_moderation_comment sampleMsg ⟨"t1", "approve", "0123456789abcdef"⟩
            ⟨true, false, true, true, true⟩ sampleDB).db.pending
          = sampleDB.pending.filter
              (fun r => !(lookupField r "id" == lookupField sampleTrack "id"))) :=
  c8_unconditional_delete sampleMsg ⟨"t1", "approve", "0123456789abcdef"⟩
    ⟨true, false, true, true, true⟩ sampleDB sampleTrack (by decide) (by decide)

/-! ## C6: the moderation queue discipline -/

theorem decisionStep_no_present {action : String} {iOk : Bool} {db : DB} {s : Rec}
    {t : Rec} {tid : Option Value} :
    Effect.presentTrack t tid ∉ (decisionStep action iOk db s).2.2 := by
  intro h
  unfold decisionStep at h
  split at h
  · split at h <;> simp at h
  · split at h
    · split at h <;> simp at h
    · simp at h

theorem notifySegment_no_present {success : Bool} {uid : Option Value} {nOk : Bool}
    {action comment : String} {t : Rec} {tid : Option Value} :
    Effect.presentTrack t tid ∉ notifySegment success uid nOk action comment := by
  intro h
  unfold notifySegment at h
  split at h
  · split at h
    · split at h <;> simp at h
    · simp at h
  · simp at h

theorem deleteSegment_no_present {dOk : Bool} {idv : Option Value} {t : Rec}
    {tid : Option Value} :
    Effect.presentTrack t tid ∉ deleteSegment dOk idv := by
  intro h
  unfold deleteSegment at h
  split at h <;> simp at h

theorem continuationEffs_mem {lOk : Bool} {db2 : DB} {t : Rec} {tid : Option Value}
    (h : Effect.presentTrack t tid ∈ continuationEffs lOk db2) :
    ∃ rest, get_all_pending_tracks lOk db2 = t :: rest := by
  unfold continuationEffs at h
  split at h
  · next nt rest heq =>
      simp [send_moderation_message] at h
      exact ⟨rest, by rw [heq, h.1]⟩
  · simp at h

/-- C6: the moderation queue is walked in ascending `created_at` order:
the pending list is served sorted (a permutation of the stored rows),
`/moderate` presents its head — a track with the least `created_at` — the
after-comment continuation again presents a least-`created_at` remaining
track, and processing removes exactly the row whose `id` matches,
i.e. (when row ids are distinct) the element at its list index. -/
theorem c6_queue_discipline :
    (∀ db : DB, List.Sorted recLe (get_all_pending_tracks true db)
      ∧ List.Perm (get_all_pending_tracks true db) db.pending)
    ∧ (∀ (modId : Int) (msg : Msg) (db : DB) (fsm : FSMState) (t : Rec) (rest : List Rec),
        msg.fromUserId = modId →
        sortPending db.pending = t :: rest →
        cmd_moderate modId msg true db fsm
          = ⟨[Effect.dbSelect "pending_tracks",
              Effect.presentTrack t (lookupField t "id")], db, fsm⟩
        ∧ t ∈ db.pending ∧ ∀ r ∈ db.pending, createdKey t ≤ createdKey r)
    ∧ (∀ (msg : Msg) (d : ModData) (o : Oracle) (db : DB) (t : Rec) (tid : Option Value),
        o.listOk = true →
        Effect.presentTrack t tid ∈ (process_moderation_comment msg d o db).effects →
        t ∈ (process_moderation_comment msg d o db).db.pending
        ∧ ∀ r ∈ (process_moderation_comment msg d o db).db.pending,
            createdKey t ≤ createdKey r)
    ∧ (∀ (msg : Msg) (d : ModData) (o : Oracle) (db : DB) (track : Rec),
        get_track_by_id o.getOk db d.track_db_id = some track →
        o.deleteOk = true →
        (db.pending.map (fun r => lookupField r "id")).Nodup →
        (process_moderation_comment msg d o db).db.pending
          = db.pending.eraseIdx
              (db.pending.findIdx (fun r => lookupField r "id" == lookupField track "id"))) := by
  refine ⟨?_, ?_, ?_, ?_⟩
  · intro db
    exact ⟨sortPending_sorted db.pending, sortPending_perm db.pending⟩
  · intro modId msg db fsm t rest hmod hsort
    have hbe : (msg.fromUserId != modId) = false := by simp [hmod]
    obtain ⟨hmem, hmin⟩ := sortPending_head_min hsort
    refine ⟨?_, hmem, hmin⟩
    simp [cmd_moderate, hbe, get_all_pending_tracks, hsort, send_moderation_message]
  · intro msg d o db t tid hlist hmem
    cases hfind : get_track_by_id o.getOk db d.track_db_id with
    | none =>
        simp only [process_moderation_comment, hfind] at hmem
        simp at hmem
    | some track =>
        simp only [process_moderation_comment, hfind] at hmem ⊢
        rcases List.mem_cons.mp hmem with h | hmem
        · simp at h
        · rcases List.mem_append.mp hmem with h3 | hcont
          · rcases List.mem_append.mp h3 with h4 | hdel
            · rcases List.mem_append.mp h4 with hstep | hnot
              · exact absurd hstep decisionStep_no_present
              · exact absurd hnot notifySegment_no_present
            · exact absurd hdel deleteSegment_no_present
          · obtain ⟨rest, heq⟩ := continuationEffs_mem hcont
            simp only [get_all_pending_tracks, hlist, if_true] at heq
            exact sortPending_head_min heq
  · intro msg d o db track hfound hdel hnd
    simp only [process_moderation_comment, hfound]
    simp only [hdel, if_true, decisionStep_pending]
    exact filter_ne_eq_eraseIdx (fun r => lookupField r "id") db.pending track
      (get_track_by_id_mem hfound).1 hnd

theorem c6_queue_discipline_witness :
    (cmd_moderate 42 sampleMsg true sampleDB FSMState.idle
        = ⟨[Effect.dbSelect "pending_tracks",
            Effect.presentTrack sampleTrack (lookupField sampleTrack "id")],
           sampleDB, FSMState.idle⟩
      ∧ sampleTrack ∈ sampleDB.pending
      ∧ ∀ r ∈ sampleDB.pending, createdKey sampleTrack ≤ createdKey r)
    ∧ (process_moderation_comment sampleMsg ⟨"t1", "approve", "0123456789abcdef"⟩ allOk
          sampleDB).db.pending
        = sampleDB.pending.eraseIdx
            (sampleDB.pending.findIdx
              (fun r => lookupField r "id" == lookupField sampleTrack "id")) :=
  ⟨c6_queue_discipline.2.1 42 sampleMsg sampleDB FSMState.idle sampleTrack [sampleTrack2]
      rfl (by decide),
   c6_queue_discipline.2.2.2 sampleMsg ⟨"t1", "approve", "0123456789abcdef"⟩ allOk sampleDB
      sampleTrack (by decide) rfl (by decide)⟩

/-! ## Shape lemmas for `handle_message` -/

theorem lookupField_append_right (l₁ l₂ : Rec) (k : String)
    (h : lookupField l₁ k = none) :
    lookupField (l₁ ++ l₂) k = lookupField l₂ k := by
  induction l₁ with
  | nil => rfl
  | cons kv rest ih =>
      obtain ⟨k', v⟩ := kv
      rw [List.cons_append, lookupField_cons]
      rw [lookupField_cons] at h
      by_cases hk : (k' == k) = true
      · rw [if_pos hk] at h
        simp at h
      · rw [if_neg hk] at h ⊢
        exact ih h

theorem trackDataOf_user_hash_none {msg : Msg} {tc : Option String} {td : Rec}
    (h : trackDataOf msg tc = some td) : lookupField td "user_hash" = none := by
  unfold trackDataOf at h
  split at h
  · injection h with h
    subst h
    rfl
  · split at h
    · split at h
      · cases h
      · injection h with h
        subst h
        rfl
    · cases h

theorem lookup_full_user_hash {msg : Msg} {tc : Option String} {td : Rec}
    (h : trackDataOf msg tc = some td) (uid : Int) (uh : String) :
    lookupField (td ++ [("user_id", Value.int uid), ("user_hash", Value.str uh)]) "user_hash"
      = some (Value.str uh) := by
  rw [lookupField_append_right _ _ _ (trackDataOf_user_hash_none h)]
  rw [lookupField_cons, if_neg (by decide), lookupField_cons, if_pos (by decide)]

theorem storeTrack_shape (msg : Msg) (iOk : Bool) (db : DB) (fsm : FSMState)
    (uh : String) (ts : Nat) (tc : Option String) :
    ((storeTrack msg iOk db fsm uh ts tc).db = db
      ∧ ∀ tbl r, Effect.dbInsert tbl r ∉ (storeTrack msg iOk db fsm uh ts tc).effects)
    ∨ (∃ full, lookupField full "user_hash" = some (Value.str uh)
        ∧ (∀ tbl r, Effect.dbInsert tbl r ∈ (storeTrack msg iOk db fsm uh ts tc).effects →
            tbl = "pending_tracks" ∧ r = full)
        ∧ ((storeTrack msg iOk db fsm uh ts tc).db = db
            ∨ (storeTrack msg iOk db fsm uh ts tc).db
                = { db with pending := db.pending ++ [full] })) := by
  cases htd : trackDataOf msg tc with
  | none =>
      left
      refine ⟨by simp [storeTrack, htd], ?_⟩
      intro tbl r
      simp [storeTrack, htd]
  | some td =>
      right
      refine ⟨td ++ [("user_id", Value.int msg.fromUserId), ("user_hash", Value.str uh)],
        lookup_full_user_hash htd msg.fromUserId uh, ?_, ?_⟩
      · intro tbl r hmem
        by_cases hI : iOk = true
        · simp only [storeTrack, htd, hI, Bool.not_true] at hmem
          simp at hmem
          exact ⟨hmem.1, hmem.2⟩
        · have hI' : iOk = false := by simpa using hI
          simp only [storeTrack, htd, hI', Bool.not_false] at hmem
          simp at hmem
          exact ⟨hmem.1, hmem.2⟩
      · by_cases hI : iOk = true
        · right
          simp [storeTrack, htd, hI]
        · left
          have hI' : iOk = false := by simpa using hI
          simp [storeTrack, htd, hI']

theorem handle_message_store (msg : Msg) (countOk insertOk : Bool) (db : DB)
    (h1 : isCommandText msg.text = false)
    (h2 : tsGt msg.date DEADLINE = false)
    (h3 : linkGuardFails (msg.text.map pyStrip) = false)
    (h4 : countOk = true)
    (h5 : countByHash db.pending (hash_user_id msg.fromUserId)
            + countByHash db.approved (hash_user_id msg.fromUserId) < 3) :
    handle_message msg countOk insertOk db FSMState.idle
      = ⟨Effect.dbSelect "pending_tracks" :: Effect.dbSelect "approved_tracks"
           :: (storeTrack msg insertOk db FSMState.idle (hash_user_id msg.fromUserId)
                (countByHash db.pending (hash_user_id msg.fromUserId)
                  + countByHash db.approved (hash_user_id msg.fromUserId))
                (msg.text.map pyStrip)).effects,
         (storeTrack msg insertOk db FSMState.idle (hash_user_id msg.fromUserId)
            (countByHash db.pending (hash_user_id msg.fromUserId)
              + countByHash db.approved (hash_user_id msg.fromUserId))
            (msg.text.map pyStrip)).db,
         (storeTrack msg insertOk db FSMState.idle (hash_user_id msg.fromUserId)
            (countByHash db.pending (hash_user_id msg.fromUserId)
              + countByHash db.approved (hash_user_id msg.fromUserId))
            (msg.text.map pyStrip)).fsm⟩ := by
  have hn : ¬(3 ≤ countByHash db.pending (hash_user_id msg.fromUserId)
      + countByHash db.approved (hash_user_id msg.fromUserId)) := Nat.not_le.mpr h5
  simp [handle_message, h1, h2, h3, h4, hn]

theorem handle_message_shape (msg : Msg) (countOk insertOk : Bool) (db : DB) (fsm : FSMState) :
    ((handle_message msg countOk insertOk db fsm).db = db
      ∧ ∀ tbl r, Effect.dbInsert tbl r ∉ (handle_message msg countOk insertOk db fsm).effects)
    ∨ (countByHash db.pending (hash_user_id msg.fromUserId)
          + countByHash db.approved (hash_user_id msg.fromUserId) < 3
        ∧ ∃ full, lookupField full "user_hash"
              = some (Value.str (hash_user_id msg.fromUserId))
            ∧ (∀ tbl r,
                Effect.dbInsert tbl r ∈ (handle_message msg countOk insertOk db fsm).effects →
                tbl = "pending_tracks" ∧ r = full)
            ∧ ((handle_message msg countOk insertOk db fsm).db = db
                ∨ (handle_message msg countOk insertOk db fsm).db
                    = { db with pending := db.pending ++ [full] })) := by
  cases fsm with
  | waitingForComment d =>
      left
      exact ⟨rfl, fun tbl r => by simp [handle_message]⟩
  | idle =>
      by_cases h1 : isCommandText msg.text = true
      · left
        exact ⟨by simp [handle_message, h1], fun tbl r => by simp [handle_message, h1]⟩
      have h1' : isCommandText msg.text = false := by simpa using h1
      by_cases h2 : tsGt msg.date DEADLINE = true
      · left
        exact ⟨by simp [handle_message, h1', h2], fun tbl r => by simp [handle_message, h1', h2]⟩
      have h2' : tsGt msg.date DEADLINE = false := by simpa using h2
      by_cases h3 : linkGuardFails (msg.text.map pyStrip) = true
      · left
        exact ⟨by simp [handle_message, h1', h2', h3],
          fun tbl r => by simp [handle_message, h1', h2', h3]⟩
      have h3' : linkGuardFails (msg.text.map pyStrip) = false := by simpa using h3
      by_cases h4 : countOk = true
      case neg =>
        have h4' : countOk = false := by simpa using h4
        left
        exact ⟨by simp [handle_message, h1', h2', h3', h4'],
          fun tbl r => by simp [handle_message, h1', h2', h3', h4']⟩
      case pos =>
        by_cases h5 : 3 ≤ countByHash db.pending (hash_user_id msg.fromUserId)
            + countByHash db.approved (hash_user_id msg.fromUserId)
        · left
          exact ⟨by simp [handle_message, h1', h2', h3', h4, h5],
            fun tbl r => by simp [handle_message, h1', h2', h3', h4, h5]⟩
        · have hlt : countByHash db.pending (hash_user_id msg.fromUserId)
              + countByHash db.approved (hash_user_id msg.fromUserId) < 3 :=
            Nat.lt_of_not_le h5
          have heq := handle_message_store msg countOk insertOk db h1' h2' h3' h4 hlt
          rcases storeTrack_shape msg insertOk db FSMState.idle (hash_user_id msg.fromUserId)
              (countByHash db.pending (hash_user_id msg.fromUserId)
                + countByHash db.approved (hash_user_id msg.fromUserId))
              (msg.text.map pyStrip) with ⟨hdb, hno⟩ | ⟨full, hhash, himp, hdb⟩
          · left
            constructor
            · rw [heq]
              exact hdb
            · intro tbl r hmem
              rw [heq] at hmem
              rcases List.mem_cons.mp hmem with h | hmem
              · simp at h
              rcases List.mem_cons.mp hmem with h | hmem
              · simp at h
              exact absurd hmem (hno tbl r)
          · right
            refine ⟨hlt, full, hhash, ?_, ?_⟩
            · intro tbl r hmem
              rw [heq] at hmem
              rcases List.mem_cons.mp hmem with h | hmem
              · simp at h
              rcases List.mem_cons.mp hmem with h | hmem
              · simp at h
              exact himp tbl r hmem
            · rw [heq]
              exact hdb

theorem countByHash_singleton (r : Rec) (h : String) :
    countByHash [r] h
      = if (lookupField r "user_hash" == some (Value.str h)) = true then 1 else 0 := by
  by_cases hc : (lookupField r "user_hash" == some (Value.str h)) = true <;>
    simp [countByHash, List.filter_cons, hc]

/-! ## C3: the three-submission limit -/

/-- C3: the submission handler inserts into `pending_tracks` only when the
sender's pending-plus-approved count is strictly below 3; at 3 or more it
replies that the limit is exhausted and stores nothing; consequently a
pending-plus-approved count that was at most 3 never exceeds 3 through this
handler. -/
theorem c3_submission_limit (msg : Msg) (countOk insertOk : Bool) (db : DB) (fsm : FSMState) :
    (∀ tbl r, Effect.dbInsert tbl r ∈ (handle_message msg countOk insertOk db fsm).effects →
        tbl = "pending_tracks"
        ∧ lookupField r "user_hash" = some (Value.str (hash_user_id msg.fromUserId))
        ∧ countByHash db.pending (hash_user_id msg.fromUserId)
            + countByHash db.approved (hash_user_id msg.fromUserId) < 3)
    ∧ (3 ≤ countByHash db.pending (hash_user_id msg.fromUserId)
          + countByHash db.approved (hash_user_id msg.fromUserId) →
        countOk = true →
        isCommandText msg.text = false →
        tsGt msg.date DEADLINE = false →
        linkGuardFails (msg.text.map pyStrip) = false →
        handle_message msg countOk insertOk db FSMState.idle
          = ⟨[Effect.dbSelect "pending_tracks", Effect.dbSelect "approved_tracks",
              Effect.reply MSG_LIMIT_REACHED], db, FSMState.idle⟩)
    ∧ (∀ h : String,
        countByHash db.pending h + countByHash db.approved h ≤ 3 →
        countByHash (handle_message msg countOk insertOk db fsm).db.pending h
          + countByHash (handle_message msg countOk insertOk db fsm).db.approved h ≤ 3) := by
  refine ⟨?_, ?_, ?_⟩
  · intro tbl r hmem
    rcases handle_message_shape msg countOk insertOk db fsm with
      ⟨-, hno⟩ | ⟨hlt, full, hhash, himp, -⟩
    · exact absurd hmem (hno tbl r)
    · obtain ⟨htbl, hr⟩ := himp tbl r hmem
      subst hr
      exact ⟨htbl, hhash, hlt⟩
  · intro hge hO h1 h2 h3
    simp [handle_message, h1, h2, h3, hO, hge]
  · intro h hle
    rcases handle_message_shape msg countOk insertOk db fsm with
      ⟨hdb, -⟩ | ⟨hlt, full, hhash, -, hdb⟩
    · rw [hdb]
      exact hle
    · rcases hdb with hdb | hdb
      · rw [hdb]
        exact hle
      · rw [hdb]
        show countByHash (db.pending ++ [full]) h + countByHash db.approved h ≤ 3
        rw [countByHash_append, countByHash_singleton]
        by_cases hc : (lookupField full "user_hash" == some (Value.str h)) = true
        · rw [if_pos hc]
          have hce : some (Value.str (hash_user_id msg.fromUserId)) = some (Value.str h) := by
            rw [← hhash]
            exact eq_of_beq hc
          have hh : hash_user_id msg.fromUserId = h := by
            simp only [Option.some.injEq, Value.str.injEq] at hce
            exact hce
          rw [← hh]
          rw [← hh] at hle
          omega
        · rw [if_neg hc]
          simpa using hle

theorem c3_submission_limit_witness :
    handle_message linkMsg true true limitDB FSMState.idle
      = ⟨[Effect.dbSelect "pending_tracks", Effect.dbSelect "approved_tracks",
          Effect.reply MSG_LIMIT_REACHED], limitDB, FSMState.idle⟩ :=
  (c3_submission_limit linkMsg true true limitDB FSMState.idle).2.1
    (by decide) rfl (by decide) (by decide) (by decide)

/-! ## C4: the platform filter -/

/-- C4: a non-command text message before the deadline is accepted as a
link submission exactly when its stripped text contains one of the six
platform substrings: without one the handler replies the rejection message
and stores nothing; with one (and a successful limit check below 3 and a
successful insert) the stripped text is stored as a url record. -/
theorem c4_platform_filter (msg : Msg) (countOk insertOk : Bool) (db : DB) (t : String)
    (htext : msg.text = some t)
    (hcmd : isCommandText msg.text = false)
    (hdate : tsGt msg.date DEADLINE = false)
    (haudio : msg.audio = none) :
    (containsPlatform (pyStrip t) = false →
        handle_message msg countOk insertOk db FSMState.idle
          = ⟨[Effect.reply MSG_BAD_PLATFORM], db, FSMState.idle⟩)
    ∧ (containsPlatform (pyStrip t) = true →
        countOk = true → insertOk = true →
        countByHash db.pending (hash_user_id msg.fromUserId)
          + countByHash db.approved (hash_user_id msg.fromUserId) < 3 →
        handle_message msg countOk insertOk db FSMState.idle
          = ⟨[Effect.dbSelect "pending_tracks", Effect.dbSelect "approved_tracks",
              Effect.dbInsert "pending_tracks" (linkRec msg t),
              Effect.reply (submitOkMsg (3 -
                (countByHash db.pending (hash_user_id msg.fromUserId)
                  + countByHash db.approved (hash_user_id msg.fromUserId) + 1))),
              Effect.notifyModerator (newTrackNotify (hash_user_id msg.fromUserId))],
             { db with pending := db.pending ++ [linkRec msg t] }, FSMState.idle⟩) := by
  constructor
  · intro hplat
    have hguard : linkGuardFails (msg.text.map pyStrip) = true := by
      simp [linkGuardFails, htext, hplat]
    simp [handle_message, hcmd, hdate, hguard]
  · intro hplat hO hI hlt
    have hguard : linkGuardFails (msg.text.map pyStrip) = false := by
      simp [linkGuardFails, htext, hplat]
    have hne : (pyStrip t == "") = false := by
      cases hc : (pyStrip t == "") with
      | true =>
          exfalso
          have he : pyStrip t = "" := eq_of_beq hc
          rw [he] at hplat
          exact absurd hplat (by decide)
      | false => rfl
    rw [handle_message_store msg countOk insertOk db hcmd hdate hguard hO hlt]
    simp [storeTrack, trackDataOf, haudio, htext, hne, hI, linkRec]

theorem c4_platform_filter_witness :
    handle_message platMsg true true sampleDB FSMState.idle
      = ⟨[Effect.dbSelect "pending_tracks", Effect.dbSelect "approved_tracks",
          Effect.dbInsert "pending_tracks"
            (linkRec platMsg " https://open.spotify.com/track/x "),
          Effect.reply (submitOkMsg (3 -
            (countByHash sampleDB.pending (hash_user_id 42)
              + countByHash sampleDB.approved (hash_user_id 42) + 1))),
          Effect.notifyModerator (newTrackNotify (hash_user_id 42))],
         { sampleDB with
            pending := sampleDB.pending ++ [linkRec platMsg " https://open.spotify.com/track/x "] },
         FSMState.idle⟩ :=
  (c4_platform_filter platMsg true true sampleDB " https://open.spotify.com/track/x "
      rfl (by decide) (by decide) rfl).2 (by decide) rfl rfl (by decide)

end MusicalOffer
